import Mathlib

/-!
Verification of the BallSim-py scene document model, persistence codec and
editor interaction rules, as a shallow embedding of the repository's Python
sources (`main.py`, `gemini_output.py`) into Lean.

Numeric values held in `pygame.math.Vector2` and in JSON documents are
modelled with `ℚ` (the code performs only field arithmetic and comparisons);
`distance_to(p) <= r` is embedded square-free as `0 ≤ r ∧ dist2 ≤ r²`, which
is equivalent over the reals since a distance is nonnegative.
-/

namespace BallSim

/-- A 2D point/vector, modelling `pygame.math.Vector2`. -/
structure Vec2 where
  x : ℚ
  y : ℚ
deriving DecidableEq, Repr

/-- Squared euclidean distance between two points. `distance_to` in the source
is its square root; all comparisons in the source are embedded square-free. -/
def dist2 (a b : Vec2) : ℚ :=
  (a.x - b.x) ^ 2 + (a.y - b.y) ^ 2

/-- Stable insertion of `x` into a list sorted descending by `key`:
`x` is placed before the first element whose key is not greater than `key x`.
Together with `sortDescBy` this models Python's stable
`sorted(..., key=..., reverse=True)`. -/
def insertDescBy (key : α → Int) (x : α) : List α → List α
  | [] => [x]
  | a :: rest =>
      if key x < key a then a :: insertDescBy key x rest else x :: a :: rest

/-- Stable descending sort by an integer key, modelling Python's
`sorted(..., key=..., reverse=True)` (equal keys keep their original order). -/
def sortDescBy (key : α → Int) : List α → List α
  | [] => []
  | x :: rest => insertDescBy key x (sortDescBy key rest)

namespace Gemini

/-- JSON values as written/read by `json.dump` / `json.load` in
`gemini_output.py`. Python distinguishes integer and float tokens, so the
model does too. Objects are association lists with a first-match lookup. -/
inductive JVal where
  | jint (n : Int)
  | jnum (q : ℚ)
  | jstr (s : String)
  | jarr (items : List JVal)
  | jobj (fields : List (String × JVal))

/-- First-match key lookup in a JSON object, modelling Python dict access. -/
def jlookup : List (String × JVal) → String → Option JVal
  | [], _ => none
  | (k, v) :: rest, key => if k = key then some v else jlookup rest key

/-- The Python exceptions `load_from_json` and its callees can raise:
`FileNotFoundError`, `KeyError` (missing dict key), `TypeError`
(subscripting a non-dict / non-list), `IndexError` (short list). -/
inductive PyErr where
  | fileNotFound
  | keyError (k : String)
  | typeError
  | indexError
deriving DecidableEq, Repr

/-- Python `d[key]` on a JSON value: `KeyError` when the key is absent,
`TypeError` when the value is not an object. -/
def subscript : JVal → String → Except PyErr JVal
  | .jobj fields, key =>
      match jlookup fields key with
      | some v => .ok v
      | none => .error (.keyError key)
  | _, _ => .error .typeError

/-- Python `l[i]` on a JSON value. -/
def item : JVal → Nat → Except PyErr JVal
  | .jarr items, i =>
      match items.get? i with
      | some v => .ok v
      | none => .error .indexError
  | _, _ => .error .typeError

/-- Read an integer token, as stored for `width`, `radius`, `layer`, etc. -/
def asInt : JVal → Except PyErr Int
  | .jint n => .ok n
  | _ => .error .typeError

/-- Read a numeric token; `pygame.math.Vector2` accepts ints and floats. -/
def asNum : JVal → Except PyErr ℚ
  | .jint n => .ok (n : ℚ)
  | .jnum q => .ok q
  | _ => .error .typeError

/-- Read a string token. -/
def asStr : JVal → Except PyErr String
  | .jstr s => .ok s
  | _ => .error .typeError

/-- Read an array of JSON values. -/
def asArr : JVal → Except PyErr (List JVal)
  | .jarr items => .ok items
  | _ => .error .typeError

/-- A ball of `gemini_output.py`: position, velocity, radius, opaque color
data (a JSON value passed through unchanged) and a layer index. -/
structure Ball where
  position : Vec2
  velocity : Vec2
  radius : Int
  color_data : JVal
  layer : Int

/-- Embedding of `Ball.contains_point`: `self.position.distance_to(point) <= self.radius`,
embedded square-free (equivalent over the reals). -/
def Ball.contains_point (b : Ball) (p : Vec2) : Bool :=
  decide (0 ≤ (b.radius : ℚ) ∧ dist2 b.position p ≤ ((b.radius : ℚ)) ^ 2)

/-- Embedding of `Ball.to_dict` of `gemini_output.py`. -/
def Ball.to_dict (b : Ball) : JVal :=
  .jobj [("position", .jarr [.jnum b.position.x, .jnum b.position.y]),
         ("velocity", .jarr [.jnum b.velocity.x, .jnum b.velocity.y]),
         ("radius", .jint b.radius),
         ("color", b.color_data),
         ("layer", .jint b.layer)]

/-- Embedding of `Ball.from_dict` of `gemini_output.py`: reads the keys in the source's
evaluation order, raising `KeyError` / `TypeError` / `IndexError` exactly
where the Python subscripts would. -/
def Ball.from_dict (d : JVal) : Except PyErr Ball := do
  let posv ← subscript d ("position")
  let px ← asNum (← item posv 0)
  let py ← asNum (← item posv 1)
  let velv ← subscript d ("velocity")
  let vx ← asNum (← item velv 0)
  let vy ← asNum (← item velv 1)
  let radius ← asInt (← subscript d ("radius"))
  let color ← subscript d ("color")
  let layer ← asInt (← subscript d ("layer"))
  pure ⟨⟨px, py⟩, ⟨vx, vy⟩, radius, color, layer⟩

/-- The scene of `gemini_output.py`: settings plus an ordered ball list. -/
structure Scene where
  width : Int
  height : Int
  bg_color_data : JVal
  framerate : Int
  color_space : String
  balls : List Ball

/-- Embedding of `Scene.add_ball` of `gemini_output.py`: a plain append (this version does
not touch the ball's layer). -/
def Scene.add_ball (s : Scene) (b : Ball) : Scene :=
  { s with balls := s.balls ++ [b] }

/-- Embedding of `Scene.get_ball_at_pos` of `gemini_output.py`: scan the balls sorted by
layer descending (Python's stable `sorted(..., reverse=True)`) and return the
first one containing the point. -/
def Scene.get_ball_at_pos (s : Scene) (p : Vec2) : Option Ball :=
  (sortDescBy (fun b => b.layer) s.balls).find? (fun b => b.contains_point p)

/-- The document built by `Scene.save_to_json` (the timestamp is
`datetime.now().isoformat()`, passed in as a parameter here). -/
def Scene.save_doc (s : Scene) (timestamp : String) : JVal :=
  .jobj [("scene_settings", .jobj
            [("width", .jint s.width),
             ("height", .jint s.height),
             ("background_color", s.bg_color_data),
             ("framerate", .jint s.framerate),
             ("color_space", .jstr s.color_space),
             ("last_accessed", .jstr timestamp)]),
         ("objects", .jobj [("balls", .jarr (s.balls.map Ball.to_dict))])]

/-- The ball-loading loop of `Scene.load_from_json`:
`for ball_data in ...: new_scene.add_ball(Ball.from_dict(ball_data))`. -/
def addLoadedBalls (s : Scene) : List JVal → Except PyErr Scene
  | [] => pure s
  | d :: rest => do
      let b ← Ball.from_dict d
      addLoadedBalls (s.add_ball b) rest

/-- The document-decoding part of `Scene.load_from_json`, reading the keys in
the source's evaluation order and building a fresh scene. -/
def Scene.load_doc (doc : JVal) : Except PyErr Scene := do
  let settings ← subscript doc ("scene_settings")
  let width ← asInt (← subscript settings ("width"))
  let height ← asInt (← subscript settings ("height"))
  let bg ← subscript settings ("background_color")
  let framerate ← asInt (← subscript settings ("framerate"))
  let cspace ← asStr (← subscript settings ("color_space"))
  let objects ← subscript doc ("objects")
  let ballDicts ← asArr (← subscript objects ("balls"))
  addLoadedBalls ⟨width, height, bg, framerate, cspace, []⟩ ballDicts

/-- The saved-scenes directory, as a map from file name to parsed content. -/
abbrev FS := String → Option JVal

/-- File name used for a scene name: `f"{filename}.json"`. -/
def scene_filename (name : String) : String := name ++ ".json"

/-- Embedding of `Scene.save_to_json`: writes the encoded document under the scene name. -/
def Scene.save_to_json (fs : FS) (s : Scene) (name : String)
    (timestamp : String) : FS :=
  fun p => if p = scene_filename name then some (s.save_doc timestamp) else fs p

/-- Embedding of `Scene.load_from_json`: raises `FileNotFoundError` when the file is
absent, otherwise decodes a fresh scene from its content. -/
def Scene.load_from_json (fs : FS) (name : String) : Except PyErr Scene :=
  match fs (scene_filename name) with
  | none => .error .fileNotFound
  | some doc => Scene.load_doc doc

/-- The application-shell state touched by the startup load handler. -/
structure AppS where
  current_scene : Option Scene
  app_state : String

/-- The `btn_load_scene` branch of `App.handle_startup_events`:
`try: current_scene = Scene.load_from_json(...); app_state = "EDITOR"
except FileNotFoundError: print(...)`. Only `FileNotFoundError` is caught;
any other exception propagates (`.error`), in which case the handler never
returns an application state. -/
def handle_load_click (a : AppS) (fs : FS) : Except PyErr AppS :=
  match Scene.load_from_json fs ("my_test_scene") with
  | .ok s => .ok ⟨some s, "EDITOR"⟩
  | .error .fileNotFound => .ok a
  | .error e => .error e

/-- Constant `CANVAS_RECT.x = TOOLBAR_WIDTH` in `gemini_output.py`. -/
def CANVAS_RECT_X : ℚ := 80

/-- Constant `CANVAS_RECT.y = FILE_MENU_HEIGHT` in `gemini_output.py`. -/
def CANVAS_RECT_Y : ℚ := 40

/-- One `MOUSEMOTION` step while panning, from `App.handle_editor_events`:
`camera_offset += mouse - pan_start; pan_start = mouse;` then the one-sided
clamp `offset.x = min(CANVAS_RECT.x, offset.x)` (same for y). Returns the new
`(camera_offset, pan_start)` pair. -/
def pan_move_step (camera_offset pan_start mouse : Vec2) : Vec2 × Vec2 :=
  let moved : Vec2 := ⟨camera_offset.x + (mouse.x - pan_start.x),
                       camera_offset.y + (mouse.y - pan_start.y)⟩
  (⟨min CANVAS_RECT_X moved.x, min CANVAS_RECT_Y moved.y⟩, mouse)

end Gemini

namespace MainPy

/-- The grid spacing constant `GRID_SPACING` of `main.py`. -/
def GRID_SPACING : Int := 50

/-- Python's builtin `round` (banker's rounding, ties to the even integer),
on exact rationals. -/
def pyRound (q : ℚ) : Int :=
  let f := ⌊q⌋
  let frac := q - (f : ℚ)
  if frac < 1 / 2 then f
  else if 1 / 2 < frac then f + 1
  else if f % 2 = 0 then f else f + 1

/-- One coordinate of `BallSimApp.snap_to_grid`:
`round(x / GRID_SPACING) * GRID_SPACING`. -/
def snap_coord (x : Int) : Int :=
  pyRound ((x : ℚ) / (GRID_SPACING : ℚ)) * GRID_SPACING

/-- Embedding of `BallSimApp.snap_to_grid`, applied per axis independently. -/
def snap_to_grid (p : Int × Int) : Int × Int :=
  (snap_coord p.1, snap_coord p.2)

/-- The snapped position as a `pygame.math.Vector2`
(`pg.math.Vector2(snapped_pos)` in the source). -/
def snap_vec (p : Int × Int) : Vec2 :=
  ⟨((snap_to_grid p).1 : ℚ), ((snap_to_grid p).2 : ℚ)⟩

/-- The loosely-typed color dictionaries of `main.py`
(string key to an integer triple, e.g. `\x7b'rgb': (255, 0, 0)\x7d`). -/
abbrev ColorDict := List (String × Int × Int × Int)

/-- Embedding of `BallPath` of `main.py` (defaults `start_time=0`, `end_time=1`). -/
structure BallPath where
  start_pos : Vec2
  end_pos : Vec2
  start_time : Int
  end_time : Int
deriving DecidableEq, Repr

/-- Embedding of `Ball` of `main.py`. -/
structure Ball where
  position : Vec2
  radius : Int
  color : ColorDict
  layer : Int
  path : Option BallPath
deriving DecidableEq, Repr

/-- Embedding of `Ball.is_colliding_with_point`:
`self.position.distance_to(point) <= self.radius`, embedded square-free. -/
def Ball.is_colliding_with_point (b : Ball) (p : Vec2) : Bool :=
  decide (0 ≤ (b.radius : ℚ) ∧ dist2 b.position p ≤ ((b.radius : ℚ)) ^ 2)

/-- Embedding of `Scene` of `main.py`. -/
structure Scene where
  width : Int
  height : Int
  bg_color : ColorDict
  color_space : String
  balls : List Ball
deriving DecidableEq, Repr

/-- The `max(b.layer for b in self.balls)` computation of `Scene.add_ball`,
with the source's `-1` default for an empty list. -/
def max_layer : List Ball → Int
  | [] => -1
  | [b] => b.layer
  | b :: c :: rest => max b.layer (max_layer (c :: rest))

/-- List-level core of `Scene.add_ball` of `main.py`: overwrite the new
ball's layer with `max_layer + 1` and append it. -/
def add_ball_list (l : List Ball) (b : Ball) : List Ball :=
  l ++ [{ b with layer := max_layer l + 1 }]

/-- Embedding of `Scene.add_ball` of `main.py`. -/
def Scene.add_ball (s : Scene) (b : Ball) : Scene :=
  { s with balls := add_ball_list s.balls b }

/-- List-level core of `Scene.remove_ball` of `main.py`:
`if ball in self.balls: self.balls.remove(ball)` (removes the first
occurrence; comparison is Python object identity, modelled by equality of the
fully-concrete ball records). -/
def remove_ball_list (l : List Ball) (b : Ball) : List Ball :=
  if b ∈ l then l.erase b else l

/-- Embedding of `Scene.remove_ball` of `main.py`. -/
def Scene.remove_ball (s : Scene) (b : Ball) : Scene :=
  { s with balls := remove_ball_list s.balls b }

/-- Embedding of `BallSimApp.get_ball_at_pos` of `main.py`: scan the ball list in reverse
and return the first ball containing the point. -/
def get_ball_at_pos (s : Scene) (p : Vec2) : Option Ball :=
  s.balls.reverse.find? (fun b => b.is_colliding_with_point p)

/-- The path-drag state of `BallSimApp` (`is_dragging_path`, `drag_ball`).
The Python field holds an object reference; it is modelled as an index into
the scene's ball list, valid while the ball is present. -/
structure EditorDrag where
  is_dragging_path : Bool
  drag_ball : Option Nat
deriving DecidableEq, Repr

/-- The `MOUSEBUTTONUP` (left button) branch of
`BallSimApp.handle_events_editor`: when a path drag is in progress, snap the
release point; if it coincides with the dragged ball's position
(`distance_to == 0`) destroy the ball's path, otherwise attach a fresh
`BallPath` from the ball's position to the snapped point; in either case
reset the drag state. -/
def handle_mouse_up_left (s : Scene) (es : EditorDrag) (p : Int × Int) :
    Scene × EditorDrag :=
  match es.is_dragging_path, es.drag_ball with
  | true, some i =>
      match s.balls.get? i with
      | some b =>
          let endv := snap_vec p
          let b2 := if dist2 b.position endv = 0
                    then { b with path := none }
                    else { b with path := some ⟨b.position, endv, 0, 1⟩ }
          ({ s with balls := s.balls.set i b2 }, ⟨false, none⟩)
      | none => (s, ⟨false, none⟩)
  | _, _ => (s, es)

/-- Ball lists reachable in `main.py` from an empty scene by any interleaving
of `add_ball` and `remove_ball`. -/
inductive ReachableBalls : List Ball → Prop where
  | base : ReachableBalls []
  | add (l : List Ball) (b : Ball) :
      ReachableBalls l → ReachableBalls (add_ball_list l b)
  | rem (l : List Ball) (b : Ball) :
      ReachableBalls l → ReachableBalls (remove_ball_list l b)

/-- Layers of a ball list are exactly `k, k+1, k+2, ...` in order. -/
def LayersFrom : Int → List Ball → Prop
  | _, [] => True
  | k, b :: rest => b.layer = k ∧ LayersFrom (k + 1) rest

end MainPy



/-!
Helper lemmas, followed by one theorem per claim (with a witness instance
for each theorem that carries hypotheses).
-/

namespace Gemini

/-- Decoding an encoded ball recovers it exactly. -/
theorem from_dict_to_dict (b : Ball) : Ball.from_dict (Ball.to_dict b) = .ok b := rfl

/-- The loading loop over encoded balls appends exactly the original balls. -/
theorem addLoadedBalls_map (l : List Ball) (s : Scene) :
    addLoadedBalls s (l.map Ball.to_dict) = .ok { s with balls := s.balls ++ l } := by
  induction l generalizing s with
  | nil =>
      simp only [List.map_nil, addLoadedBalls, List.append_nil]
      rfl
  | cons b rest ih =>
      show addLoadedBalls (s.add_ball b) (rest.map Ball.to_dict) = _
      rw [ih]
      simp [Scene.add_ball]

/-- Document-level round trip: decoding an encoded scene recovers it. -/
theorem load_doc_save_doc (s : Scene) (ts : String) :
    Scene.load_doc (Scene.save_doc s ts) = .ok s := by
  have h : Scene.load_doc (Scene.save_doc s ts) =
      addLoadedBalls ⟨s.width, s.height, s.bg_color_data, s.framerate, s.color_space, []⟩
        (s.balls.map Ball.to_dict) := rfl
  rw [h, addLoadedBalls_map]
  rfl

end Gemini

/-- Membership in a descending insertion. -/
theorem mem_insertDescBy (key : α → Int) (x a : α) (l : List α) :
    a ∈ insertDescBy key x l ↔ a = x ∨ a ∈ l := by
  induction l with
  | nil => simp [insertDescBy]
  | cons c rest ih =>
      simp only [insertDescBy]
      split
      case isTrue h =>
          simp [ih]
          tauto
      case isFalse h =>
          simp

/-- Descending insertion preserves the sorted-descending invariant. -/
theorem pairwise_insertDescBy (key : α → Int) (x : α) (l : List α)
    (h : l.Pairwise (fun a b => key b ≤ key a)) :
    (insertDescBy key x l).Pairwise (fun a b => key b ≤ key a) := by
  induction l with
  | nil => simp [insertDescBy]
  | cons c rest ih =>
      rw [List.pairwise_cons] at h
      simp only [insertDescBy]
      split
      case isTrue hlt =>
          rw [List.pairwise_cons]
          constructor
          · intro a ha
            rw [mem_insertDescBy] at ha
            rcases ha with rfl | ha
            · exact le_of_lt hlt
            · exact h.1 a ha
          · exact ih h.2
      case isFalse hge =>
          rw [List.pairwise_cons]
          constructor
          · intro a ha
            simp only [List.mem_cons] at ha
            rcases ha with rfl | ha
            · exact le_of_not_lt hge
            · exact le_trans (h.1 a ha) (le_of_not_lt hge)
          · exact List.pairwise_cons.mpr h

/-- The descending sort is sorted descending by the key. -/
theorem pairwise_sortDescBy (key : α → Int) (l : List α) :
    (sortDescBy key l).Pairwise (fun a b => key b ≤ key a) := by
  induction l with
  | nil => simp [sortDescBy]
  | cons x rest ih => exact pairwise_insertDescBy key x _ ih

/-- The descending sort has the same members as its input. -/
theorem mem_sortDescBy (key : α → Int) (a : α) (l : List α) :
    a ∈ sortDescBy key l ↔ a ∈ l := by
  induction l with
  | nil => simp [sortDescBy]
  | cons x rest ih => simp [sortDescBy, mem_insertDescBy, ih]

/-- On a list sorted descending by key, `find?` returns a satisfying element
of maximal key. -/
theorem find_desc_max (key : α → Int) (q : α → Bool) (m : List α) (b : α)
    (hs : m.Pairwise (fun a c => key c ≤ key a)) (hf : m.find? q = some b) :
    ∀ c ∈ m, q c = true → key c ≤ key b := by
  induction m with
  | nil => simp at hf
  | cons a rest ih =>
      rw [List.pairwise_cons] at hs
      rw [List.find?_cons] at hf
      intro c hc hq
      by_cases hqa : q a
      · simp [hqa] at hf
        subst hf
        rcases List.mem_cons.mp hc with rfl | hc
        · exact le_refl _
        · exact hs.1 c hc
      · simp [hqa] at hf
        rcases List.mem_cons.mp hc with rfl | hc
        · simp [hq] at hqa
        · exact ih hs.2 hf c hc hq

/-- Inserting an element whose key is smaller than every key in the list
sends it to the end. -/
theorem insertDescBy_append (key : α → Int) (x : α) (l : List α)
    (h : ∀ a ∈ l, key x < key a) : insertDescBy key x l = l ++ [x] := by
  induction l with
  | nil => rfl
  | cons a rest ih =>
      simp only [insertDescBy]
      rw [if_pos (h a (List.mem_cons_self a rest))]
      rw [ih (fun c hc => h c (List.mem_cons_of_mem a hc))]
      rfl

/-- Sorting a strictly-ascending list descending is just reversal. -/
theorem sortDescBy_of_ascending (key : α → Int) (l : List α)
    (h : l.Pairwise (fun a b => key a < key b)) :
    sortDescBy key l = l.reverse := by
  induction l with
  | nil => rfl
  | cons x rest ih =>
      rw [List.pairwise_cons] at h
      simp only [sortDescBy]
      rw [ih h.2, insertDescBy_append]
      · simp
      · intro a ha
        exact h.1 a (List.mem_reverse.mp ha)

/-- Squared distance vanishes exactly on equal points. -/
theorem dist2_eq_zero (a b : Vec2) : dist2 a b = 0 ↔ a = b := by
  rw [dist2]
  constructor
  · intro h
    have hx : (a.x - b.x) ^ 2 = 0 ∧ (a.y - b.y) ^ 2 = 0 := by
      constructor <;> nlinarith [sq_nonneg (a.x - b.x), sq_nonneg (a.y - b.y)]
    have hx2 : a.x = b.x := by
      have := pow_eq_zero_iff (n := 2) (by norm_num) |>.mp hx.1
      linarith
    have hy2 : a.y = b.y := by
      have := pow_eq_zero_iff (n := 2) (by norm_num) |>.mp hx.2
      linarith
    cases a
    cases b
    simp_all
  · intro h
    subst h
    ring

/-- Success of a bind in the `Except` monad splits into successes. -/
theorem except_bind_ok {ε α β : Type} (x : Except ε α) (f : α → Except ε β) (c : β) :
    x >>= f = .ok c ↔ ∃ a, x = .ok a ∧ f a = .ok c := by
  cases x with
  | ok a => simp [Bind.bind, Except.bind]
  | error e =>
      simp only [Bind.bind, Except.bind]
      constructor
      · intro h
        cases h
      · rintro ⟨a, ha, _⟩
        cases ha

/-- Reading back an in-bounds `List.set` update. -/
theorem get?_set_self_of_lt (l : List α) (i : Nat) (a : α) (h : i < l.length) :
    (l.set i a).get? i = some a := by
  rw [List.get?_eq_getElem?, List.getElem?_set_self]
  simp [List.getElem?_eq_getElem, h]

namespace Gemini

/-- If the loading loop succeeds, every ball dictionary decoded. -/
theorem addLoadedBalls_ok (s : Scene) (ds : List JVal) (s2 : Scene)
    (h : addLoadedBalls s ds = .ok s2) : ∀ d ∈ ds, ∃ b, Ball.from_dict d = .ok b := by
  induction ds generalizing s with
  | nil => simp
  | cons d rest ih =>
      rw [addLoadedBalls] at h
      rw [show (do
            let b ← Ball.from_dict d
            addLoadedBalls (s.add_ball b) rest) =
          Ball.from_dict d >>= fun b => addLoadedBalls (s.add_ball b) rest from rfl,
        except_bind_ok] at h
      obtain ⟨b, hb, hrest⟩ := h
      intro d2 hd2
      rcases List.mem_cons.mp hd2 with rfl | hd2
      · exact ⟨b, hb⟩
      · exact ih _ hrest d2 hd2

/-- A successfully decoded ball dictionary has its `radius` key present. -/
theorem from_dict_ok_radius (d : JVal) (b : Ball) (h : Ball.from_dict d = .ok b) :
    ∃ rv, subscript d ("radius") = .ok rv := by
  rw [Ball.from_dict] at h
  simp only [except_bind_ok] at h
  obtain ⟨posv, h1, i0, h2, px, h3, i1, h4, py, h5, velv, h6, j0, h7, vx, h8, j1, h9,
    vy, h10, rv, hrad, hrest⟩ := h
  exact ⟨rv, hrad⟩

end Gemini

namespace MainPy

/-- Every layer in the list is bounded by `max_layer`. -/
theorem layer_le_max_layer (l : List Ball) (a : Ball) (ha : a ∈ l) :
    a.layer ≤ max_layer l := by
  induction l with
  | nil => simp at ha
  | cons b rest ih =>
      cases rest with
      | nil =>
          simp only [List.mem_cons, List.not_mem_nil, or_false] at ha
          subst ha
          simp [max_layer]
      | cons c t =>
          rw [show max_layer (b :: c :: t) = max b.layer (max_layer (c :: t)) from rfl]
          rcases List.mem_cons.mp ha with rfl | ha2
          · exact le_max_left _ _
          · exact le_trans (ih ha2) (le_max_right _ _)

/-- Every reachable ball list is strictly increasing in layer. -/
theorem reachable_pairwise (l : List Ball) (h : ReachableBalls l) :
    l.Pairwise (fun a c => a.layer < c.layer) := by
  induction h with
  | base => simp
  | add l b hl ih =>
      rw [add_ball_list, List.pairwise_append]
      refine ⟨ih, by simp, ?_⟩
      intro a ha c hc
      simp only [List.mem_singleton] at hc
      subst hc
      have := layer_le_max_layer l a ha
      show a.layer < max_layer l + 1
      omega
  | rem l b hl ih =>
      rw [remove_ball_list]
      split
      · exact ih.sublist (List.erase_sublist b l)
      · exact ih

/-- Indexing a list whose layers count up from `k`. -/
theorem lf_get (l : List Ball) (k : Int) (h : LayersFrom k l) :
    ∀ i (hi : i < l.length), (l.get ⟨i, hi⟩).layer = k + i := by
  induction l generalizing k with
  | nil =>
      intro i hi
      simp at hi
  | cons b rest ih =>
      rw [LayersFrom] at h
      intro i hi
      cases i with
      | zero => simpa using h.1
      | succ j =>
          have hj := ih (k + 1) h.2 j (by simpa using hi)
          show (rest.get ⟨j, _⟩).layer = k + (j + 1 : Nat)
          rw [hj]
          push_cast
          ring

/-- Optional-indexing version of `lf_get`. -/
theorem lf_get_opt (l : List Ball) (k : Int) (h : LayersFrom k l) (i : Nat) (b : Ball)
    (hb : l.get? i = some b) : b.layer = k + i := by
  obtain ⟨hi, hg⟩ := List.get?_eq_some.mp hb
  rw [← hg]
  exact lf_get l k h i hi

/-- The maximal layer of a nonempty counting-up list is its last layer. -/
theorem lf_max (l : List Ball) (k : Int) (h : LayersFrom k l) (hne : l ≠ []) :
    max_layer l = k + l.length - 1 := by
  induction l generalizing k with
  | nil => cases hne rfl
  | cons b rest ih =>
      rw [LayersFrom] at h
      cases rest with
      | nil => simp [max_layer, h.1]
      | cons c t =>
          have hr := ih (k + 1) h.2 (by simp)
          rw [show max_layer (b :: c :: t) = max b.layer (max_layer (c :: t)) from rfl,
            h.1, hr]
          simp only [List.length_cons]
          push_cast
          omega

/-- Appending the next layer keeps the counting-up property. -/
theorem lf_append (l : List Ball) (k : Int) (b : Ball) (h : LayersFrom k l)
    (hb : b.layer = k + l.length) : LayersFrom k (l ++ [b]) := by
  induction l generalizing k with
  | nil =>
      rw [List.nil_append, LayersFrom]
      refine ⟨?_, trivial⟩
      simpa using hb
  | cons x rest ih =>
      rw [LayersFrom] at h
      rw [List.cons_append, LayersFrom]
      refine ⟨h.1, ih (k + 1) h.2 ?_⟩
      rw [hb]
      simp only [List.length_cons]
      push_cast
      ring

/-- The `add_ball` core preserves layers counting up from zero. -/
theorem lf_add (l : List Ball) (b : Ball) (h : LayersFrom 0 l) :
    LayersFrom 0 (add_ball_list l b) := by
  rw [add_ball_list]
  by_cases hne : l = []
  · subst hne
    rw [List.nil_append, LayersFrom]
    exact ⟨by simp [max_layer], trivial⟩
  · apply lf_append l 0 _ h
    show max_layer l + 1 = 0 + (l.length : Int)
    rw [lf_max l 0 h hne]
    omega

/-- Folding `add_ball` keeps layers counting up from zero. -/
theorem lf_foldl (bs : List Ball) (l : List Ball) (h : LayersFrom 0 l) :
    LayersFrom 0 (bs.foldl add_ball_list l) := by
  induction bs generalizing l with
  | nil => simpa using h
  | cons b rest ih => exact ih _ (lf_add l b h)

/-- Scene-level `add_ball` folding projects to the list-level fold. -/
theorem foldl_add_ball_balls (bs : List Ball) (s : Scene) :
    (bs.foldl Scene.add_ball s).balls = bs.foldl add_ball_list s.balls := by
  induction bs generalizing s with
  | nil => rfl
  | cons b rest ih => exact ih (s.add_ball b)

/-- Python's `round` fixes integers. -/
theorem pyRound_intCast (n : Int) : pyRound (n : ℚ) = n := by
  rw [pyRound]
  simp [Int.floor_intCast]

/-- Snapped coordinates are multiples of the grid spacing. -/
theorem snap_coord_dvd (x : Int) : GRID_SPACING ∣ snap_coord x :=
  dvd_mul_left GRID_SPACING (pyRound ((x : ℚ) / (GRID_SPACING : ℚ)))

/-- Snapping a snapped coordinate changes nothing. -/
theorem snap_coord_idem (x : Int) : snap_coord (snap_coord x) = snap_coord x := by
  rw [show snap_coord x =
      pyRound ((x : ℚ) / (GRID_SPACING : ℚ)) * GRID_SPACING from rfl]
  rw [show ∀ k : Int, snap_coord (k * GRID_SPACING) =
      pyRound ((k * GRID_SPACING : Int) / (GRID_SPACING : ℚ)) * GRID_SPACING
    from fun k => rfl]
  push_cast
  rw [mul_div_assoc]
  norm_num [GRID_SPACING]
  rw [pyRound_intCast]

/-- Snapping the origin yields the origin. -/
theorem snap_vec_origin : snap_vec (0, 0) = (⟨0, 0⟩ : Vec2) := by
  have h : snap_coord 0 = 0 := by
    rw [snap_coord]
    norm_num
    rw [pyRound]
    norm_num
  simp [snap_vec, snap_to_grid, h]

end MainPy

/-- Claim C1: decoding the document produced by encoding any Scene
(`save_to_json` then `load_from_json` under the same name) yields a Scene
equal to the original field by field, including the balls' order and each
ball's layer value. -/
theorem claim_c1_save_then_load_roundtrip (fs : Gemini.FS) (s : Gemini.Scene)
    (name timestamp : String) :
    Gemini.Scene.load_from_json (Gemini.Scene.save_to_json fs s name timestamp)
      name = .ok s := by
  unfold Gemini.Scene.load_from_json Gemini.Scene.save_to_json
  simp [Gemini.load_doc_save_doc]

/-- Claim C2: starting from a Scene with no balls, the i-th `add_ball` call
(`main.py`) leaves the i-th ball with layer exactly i; in general `add_ball`
overwrites the caller-supplied layer with `max_layer + 1`, appends at the end
of the sequence, and (being a total function) always succeeds. -/
theorem claim_c2_add_ball_assigns_layers (s0 : MainPy.Scene)
    (h0 : s0.balls = []) (bs : List MainPy.Ball) :
    (∀ (i : Nat) (b : MainPy.Ball),
      ((bs.foldl MainPy.Scene.add_ball s0).balls).get? i = some b →
      b.layer = (i : Int)) ∧
    (∀ (s : MainPy.Scene) (b : MainPy.Ball), (s.add_ball b).balls =
      s.balls ++ [{ b with layer := MainPy.max_layer s.balls + 1 }]) := by
  constructor
  · intro i b hb
    rw [MainPy.foldl_add_ball_balls, h0] at hb
    have h2 : MainPy.LayersFrom 0 (bs.foldl MainPy.add_ball_list []) :=
      MainPy.lf_foldl bs [] trivial
    have := MainPy.lf_get_opt _ 0 h2 i b hb
    simpa using this
  · intro s b
    rfl

/-- Witness for claim C2 at a concrete input: two balls added to an empty
scene, with caller-supplied layers 7 and 9; the second ends at layer 1. -/
theorem claim_c2_witness :
    ({ position := ⟨3, 4⟩, radius := 24, color := [("rgb", 255, 0, 0)],
       layer := 1, path := none } : MainPy.Ball).layer = ((1 : Nat) : Int) :=
  (claim_c2_add_ball_assigns_layers ⟨800, 600, [], "rgb", []⟩ rfl
    [⟨⟨1, 2⟩, 24, [("rgb", 255, 0, 0)], 7, none⟩,
     ⟨⟨3, 4⟩, 24, [("rgb", 255, 0, 0)], 9, none⟩]).1 1
    ⟨⟨3, 4⟩, 24, [("rgb", 255, 0, 0)], 1, none⟩ rfl

/-- Claim C3: for every Scene and point, `get_ball_at_pos`
(`gemini_output.py`) returns `none` exactly when no ball contains the point
(boundary inclusive), and any returned ball contains the point and has
maximal layer among all containing balls. -/
theorem claim_c3_get_ball_at_pos_topmost (s : Gemini.Scene) (p : Vec2) :
    (s.get_ball_at_pos p = none ↔
      ∀ b ∈ s.balls, b.contains_point p = false) ∧
    (∀ b, s.get_ball_at_pos p = some b →
      b ∈ s.balls ∧ b.contains_point p = true ∧
      ∀ c ∈ s.balls, c.contains_point p = true → c.layer ≤ b.layer) := by
  constructor
  · rw [Gemini.Scene.get_ball_at_pos, List.find?_eq_none]
    constructor
    · intro h b hb
      have := h b ((mem_sortDescBy _ b s.balls).mpr hb)
      simpa using this
    · intro h b hb
      have := h b ((mem_sortDescBy _ b s.balls).mp hb)
      simp [this]
  · intro b hb
    rw [Gemini.Scene.get_ball_at_pos] at hb
    have hq0 := List.find?_some hb
    have hq : b.contains_point p = true := by simpa using hq0
    refine ⟨(mem_sortDescBy _ b s.balls).mp (List.mem_of_find?_eq_some hb),
      hq, ?_⟩
    intro c hc hcq
    exact find_desc_max _ _ _ b (pairwise_sortDescBy _ s.balls) hb c
      ((mem_sortDescBy _ c s.balls).mpr hc) hcq

/-- Witness for claim C3 at a concrete input: a scene with zero balls
returns `none`. -/
theorem claim_c3_witness :
    Gemini.Scene.get_ball_at_pos ⟨1280, 720, .jint 0, 60, "rgb", []⟩
      ⟨5, 5⟩ = none :=
  (claim_c3_get_ball_at_pos_topmost ⟨1280, 720, .jint 0, 60, "rgb", []⟩
    ⟨5, 5⟩).1.mpr (by simp)

/-- Claim C4: `load_from_json` never substitutes a default for a missing
required key: if decoding succeeds then `scene_settings` and its `width` key
were present, and every decoded ball dictionary had its `radius` key present
(contrapositive: a document missing such a key makes decoding fail). -/
theorem claim_c4_decode_requires_keys (doc : Gemini.JVal) (s : Gemini.Scene)
    (h : Gemini.Scene.load_doc doc = .ok s) :
    (∃ sv wv, Gemini.subscript doc ("scene_settings") = .ok sv ∧
      Gemini.subscript sv ("width") = .ok wv) ∧
    (∀ ov bv dicts, Gemini.subscript doc ("objects") = .ok ov →
      Gemini.subscript ov ("balls") = .ok bv →
      Gemini.asArr bv = .ok dicts →
      ∀ d ∈ dicts, ∃ rv, Gemini.subscript d ("radius") = .ok rv) := by
  rw [Gemini.Scene.load_doc] at h
  simp only [except_bind_ok] at h
  obtain ⟨settings, hset, wv, hw, width, hwi, hv2, hh, height, hhi, bg, hbg,
    fv, hf, fr, hfi, csv, hcs, cspace, hcsi, objects, hob, ballsv, hbv,
    dicts, hdicts, hload⟩ := h
  refine ⟨⟨settings, wv, hset, hw⟩, ?_⟩
  intro ov bv2 dicts2 hov hbv2 hdicts2 d hd
  rw [hob] at hov
  injection hov with hov2
  subst hov2
  rw [hbv] at hbv2
  injection hbv2 with hbv3
  subst hbv3
  rw [hdicts] at hdicts2
  injection hdicts2 with hd3
  subst hd3
  obtain ⟨b, hb⟩ := Gemini.addLoadedBalls_ok _ _ _ hload d hd
  exact Gemini.from_dict_ok_radius d b hb

/-- Witness for claim C4 at a concrete input: a saved empty scene decodes
successfully, so its settings and width keys are present. -/
theorem claim_c4_witness :
    ∃ sv wv, Gemini.subscript
        (Gemini.Scene.save_doc ⟨1, 2, .jint 3, 60, "rgb", []⟩ "ts")
        ("scene_settings") = .ok sv ∧
      Gemini.subscript sv ("width") = .ok wv :=
  (claim_c4_decode_requires_keys
    (Gemini.Scene.save_doc ⟨1, 2, .jint 3, 60, "rgb", []⟩ "ts")
    ⟨1, 2, .jint 3, 60, "rgb", []⟩ rfl).1

/-- Claim C5: loading raises `FileNotFoundError` when the scene file does not
exist; the startup handler swaps in the freshly decoded scene only on
success, and any failed load that returns control leaves the application
state (hence the in-memory scene) untouched. -/
theorem claim_c5_load_not_found_and_swap (fs : Gemini.FS) (name : String)
    (a : Gemini.AppS) :
    (fs (Gemini.scene_filename name) = none →
      Gemini.Scene.load_from_json fs name = .error .fileNotFound) ∧
    (∀ s, Gemini.Scene.load_from_json fs ("my_test_scene") = .ok s →
      Gemini.handle_load_click a fs = .ok ⟨some s, "EDITOR"⟩) ∧
    (∀ e, Gemini.Scene.load_from_json fs ("my_test_scene") = .error e →
      ∀ a2, Gemini.handle_load_click a fs = .ok a2 → a2 = a) := by
  refine ⟨?_, ?_, ?_⟩
  · intro h
    rw [Gemini.Scene.load_from_json, h]
  · intro s h
    rw [Gemini.handle_load_click, h]
  · intro e h a2 h2
    rw [Gemini.handle_load_click, h] at h2
    cases e
    case fileNotFound =>
        injection h2 with h3
        exact h3.symm
    case keyError k => cases h2
    case typeError => cases h2
    case indexError => cases h2

/-- Witness for claim C5 at a concrete input: on an empty directory the load
raises `FileNotFoundError` and the handler returns the state unchanged. -/
theorem claim_c5_witness :
    Gemini.Scene.load_from_json (fun _ => none) ("my_test_scene") =
      .error .fileNotFound ∧
    (⟨none, "STARTUP_MENU"⟩ : Gemini.AppS) = ⟨none, "STARTUP_MENU"⟩ :=
  ⟨(claim_c5_load_not_found_and_swap (fun _ => none) ("my_test_scene")
      ⟨none, "STARTUP_MENU"⟩).1 rfl,
   (claim_c5_load_not_found_and_swap (fun _ => none) ("my_test_scene")
      ⟨none, "STARTUP_MENU"⟩).2.2 .fileNotFound
     ((claim_c5_load_not_found_and_swap (fun _ => none) ("my_test_scene")
        ⟨none, "STARTUP_MENU"⟩).1 rfl)
     ⟨none, "STARTUP_MENU"⟩ rfl⟩

/-- Claim C6: when a path drag on ball b ends with a left pointer-up at p
(`main.py`), the drag state is fully reset; if `snap(p)` equals b's position
then `b.path` becomes `None` (whether or not b had a path), otherwise
`b.path` becomes a fresh `BallPath` from b's position to `snap(p)`. -/
theorem claim_c6_path_drag_release (s : MainPy.Scene) (es : MainPy.EditorDrag)
    (p : Int × Int) (i : Nat) (b : MainPy.Ball)
    (hd : es.is_dragging_path = true) (hb : es.drag_ball = some i)
    (hg : s.balls.get? i = some b) :
    (MainPy.handle_mouse_up_left s es p).2 = ⟨false, none⟩ ∧
    (MainPy.snap_vec p = b.position →
      (MainPy.handle_mouse_up_left s es p).1.balls.get? i =
        some { b with path := none }) ∧
    (MainPy.snap_vec p ≠ b.position →
      (MainPy.handle_mouse_up_left s es p).1.balls.get? i =
        some { b with path := some ⟨b.position, MainPy.snap_vec p, 0, 1⟩ }) := by
  obtain ⟨hlt, -⟩ := List.get?_eq_some.mp hg
  cases es with
  | mk d db =>
      simp only at hd hb
      subst hd
      subst hb
      rw [MainPy.handle_mouse_up_left]
      simp only [hg]
      refine ⟨trivial, ?_, ?_⟩
      · intro he
        rw [if_pos ((dist2_eq_zero _ _).mpr he.symm)]
        exact get?_set_self_of_lt _ _ _ hlt
      · intro he
        rw [if_neg (fun hc => he (((dist2_eq_zero _ _).mp hc).symm))]
        exact get?_set_self_of_lt _ _ _ hlt

/-- Witness for claim C6 at a concrete input: releasing at the ball's own
(snapped) position removes its existing path. -/
theorem claim_c6_witness :
    (MainPy.handle_mouse_up_left
        ⟨800, 600, [], "rgb",
          [⟨⟨0, 0⟩, 24, [], 0, some ⟨⟨0, 0⟩, ⟨50, 0⟩, 0, 1⟩⟩]⟩
        ⟨true, some 0⟩ (0, 0)).1.balls.get? 0 =
      some ⟨⟨0, 0⟩, 24, [], 0, none⟩ :=
  (claim_c6_path_drag_release
    ⟨800, 600, [], "rgb", [⟨⟨0, 0⟩, 24, [], 0, some ⟨⟨0, 0⟩, ⟨50, 0⟩, 0, 1⟩⟩]⟩
    ⟨true, some 0⟩ (0, 0) 0
    ⟨⟨0, 0⟩, 24, [], 0, some ⟨⟨0, 0⟩, ⟨50, 0⟩, 0, 1⟩⟩ rfl rfl rfl).2.1
    MainPy.snap_vec_origin

/-- Claim C7: grid snapping (`main.py`) is idempotent, produces multiples of
`GRID_SPACING` on both axes, and is applied per axis independently as
`round(coord / spacing) * spacing`. -/
theorem claim_c7_snap_idempotent_multiples (p : Int × Int) :
    MainPy.snap_to_grid (MainPy.snap_to_grid p) = MainPy.snap_to_grid p ∧
    MainPy.GRID_SPACING ∣ (MainPy.snap_to_grid p).1 ∧
    MainPy.GRID_SPACING ∣ (MainPy.snap_to_grid p).2 ∧
    MainPy.snap_to_grid p = (MainPy.snap_coord p.1, MainPy.snap_coord p.2) := by
  refine ⟨?_, MainPy.snap_coord_dvd p.1, MainPy.snap_coord_dvd p.2, rfl⟩
  show (MainPy.snap_coord (MainPy.snap_coord p.1),
        MainPy.snap_coord (MainPy.snap_coord p.2)) = _
  rw [MainPy.snap_coord_idem, MainPy.snap_coord_idem]
  rfl

/-- Claim C8: `remove_ball` (`main.py`) removes the ball when present (first
occurrence, identity comparison), is a no-op rather than an error when
absent, preserves the relative order of the remaining balls, and leaves every
other Scene field unchanged. -/
theorem claim_c8_remove_ball_noop_or_erase (s : MainPy.Scene)
    (b : MainPy.Ball) :
    (s.remove_ball b).width = s.width ∧
    (s.remove_ball b).height = s.height ∧
    (s.remove_ball b).bg_color = s.bg_color ∧
    (s.remove_ball b).color_space = s.color_space ∧
    (b ∉ s.balls → s.remove_ball b = s) ∧
    (b ∈ s.balls → ∃ l₁ l₂, s.balls = l₁ ++ b :: l₂ ∧ b ∉ l₁ ∧
      (s.remove_ball b).balls = l₁ ++ l₂) := by
  refine ⟨rfl, rfl, rfl, rfl, ?_, ?_⟩
  · intro h
    rw [MainPy.Scene.remove_ball, MainPy.remove_ball_list, if_neg h]
  · intro h
    obtain ⟨l₁, l₂, hnm, heq, her⟩ := List.exists_erase_eq h
    refine ⟨l₁, l₂, heq, hnm, ?_⟩
    rw [MainPy.Scene.remove_ball]
    simp only [MainPy.remove_ball_list, if_pos h]
    exact her

/-- Witness for claim C8 at a concrete input: removing the only ball of a
one-ball scene. -/
theorem claim_c8_witness :
    ∃ l₁ l₂, ([⟨⟨0, 0⟩, 24, [], 0, none⟩] : List MainPy.Ball) =
        l₁ ++ (⟨⟨0, 0⟩, 24, [], 0, none⟩ : MainPy.Ball) :: l₂ ∧
      (⟨⟨0, 0⟩, 24, [], 0, none⟩ : MainPy.Ball) ∉ l₁ ∧
      ((⟨800, 600, [], "rgb", [⟨⟨0, 0⟩, 24, [], 0, none⟩]⟩ :
          MainPy.Scene).remove_ball ⟨⟨0, 0⟩, 24, [], 0, none⟩).balls =
        l₁ ++ l₂ :=
  (claim_c8_remove_ball_noop_or_erase
    ⟨800, 600, [], "rgb", [⟨⟨0, 0⟩, 24, [], 0, none⟩]⟩
    ⟨⟨0, 0⟩, 24, [], 0, none⟩).2.2.2.2.2 (List.mem_singleton.mpr rfl)

/-- Claim C9: after every pan pointer-move step (`gemini_output.py`) the
camera offset satisfies `offset.x ≤ CANVAS_RECT.x` and
`offset.y ≤ CANVAS_RECT.y`, while no opposite clamp exists: every target
offset at or below those bounds is reachable by a single pan step. -/
theorem claim_c9_pan_one_sided_clamp (off ps m : Vec2) :
    (Gemini.pan_move_step off ps m).1.x ≤ Gemini.CANVAS_RECT_X ∧
    (Gemini.pan_move_step off ps m).1.y ≤ Gemini.CANVAS_RECT_Y ∧
    ∀ t : Vec2, t.x ≤ Gemini.CANVAS_RECT_X → t.y ≤ Gemini.CANVAS_RECT_Y →
      ∃ m2 : Vec2, (Gemini.pan_move_step off ps m2).1 = t := by
  refine ⟨min_le_left _ _, min_le_left _ _, ?_⟩
  intro t htx hty
  refine ⟨⟨ps.x + (t.x - off.x), ps.y + (t.y - off.y)⟩, ?_⟩
  cases t with
  | mk tx ty =>
      simp only [Gemini.pan_move_step]
      have hx : off.x + (ps.x + (tx - off.x) - ps.x) = tx := by ring
      have hy : off.y + (ps.y + (ty - off.y) - ps.y) = ty := by ring
      rw [hx, hy]
      simp only at htx hty
      rw [min_eq_right htx, min_eq_right hty]

/-- Witness for claim C9 at a concrete input: the far-negative offset
(-1000, -500) is reachable by one pan step. -/
theorem claim_c9_witness :
    ∃ m2 : Vec2, (Gemini.pan_move_step ⟨80, 40⟩ ⟨0, 0⟩ m2).1 =
      (⟨-1000, -500⟩ : Vec2) :=
  (claim_c9_pan_one_sided_clamp ⟨80, 40⟩ ⟨0, 0⟩ ⟨0, 0⟩).2.2 ⟨-1000, -500⟩
    (by norm_num [Gemini.CANVAS_RECT_X]) (by norm_num [Gemini.CANVAS_RECT_Y])

/-- Claim C10: any ball list reachable in `main.py` from an empty scene by
interleaved `add_ball` / `remove_ball` calls is strictly increasing in layer
(so layers are pairwise distinct), and on such a scene the reverse-scan
`get_ball_at_pos` agrees with scanning the balls sorted by layer
descending. -/
theorem claim_c10_layers_sorted_invariant (s : MainPy.Scene)
    (h : MainPy.ReachableBalls s.balls) :
    s.balls.Pairwise (fun a c => a.layer < c.layer) ∧
    ∀ p : Vec2, MainPy.get_ball_at_pos s p =
      (sortDescBy (fun b => b.layer) s.balls).find?
        (fun b => b.is_colliding_with_point p) := by
  have hp := MainPy.reachable_pairwise _ h
  refine ⟨hp, ?_⟩
  intro p
  rw [MainPy.get_ball_at_pos, sortDescBy_of_ascending _ _ hp]

/-- Witness for claim C10 at a concrete input: a scene built by two
`add_ball` calls has strictly increasing layers. -/
theorem claim_c10_witness :
    (⟨800, 600, [], "rgb",
        MainPy.add_ball_list (MainPy.add_ball_list []
          ⟨⟨0, 0⟩, 24, [], 5, none⟩) ⟨⟨50, 0⟩, 24, [], 2, none⟩⟩ :
      MainPy.Scene).balls.Pairwise (fun a c => a.layer < c.layer) :=
  (claim_c10_layers_sorted_invariant
    ⟨800, 600, [], "rgb",
      MainPy.add_ball_list (MainPy.add_ball_list []
        ⟨⟨0, 0⟩, 24, [], 5, none⟩) ⟨⟨50, 0⟩, 24, [], 2, none⟩⟩
    (MainPy.ReachableBalls.add _ _
      (MainPy.ReachableBalls.add _ _ MainPy.ReachableBalls.base))).1

end BallSim
